import Mathlib

/-!
Verification of the billion-dollar-contract grid program.

The program (programs/billion) sells cells of a fixed 100 x 100 grid, gates
purchases by concentric rings unlocked through a cumulative burn counter, and
distributes pooled rewards through a global scaled accumulator with per-parcel
checkpoints.  This file gives a shallow embedding of its state and of the
instruction handlers (claim_parcel, admin_mint, claim_land_buy_rewards,
update_config, initialize) and proves, or refutes, the specified properties.

Machine integers are modelled as Nat with the checked-arithmetic bounds of the
source made explicit (u16/u32/u64/u128 checked operations fail with Overflow
exactly when the Rust checked_* calls return None).  Anchor/Solana transaction
semantics make every failed instruction roll back completely, so an
instruction is modelled as a function returning Except: on error the caller
keeps the pre-state.  Token CPIs (transfer into the reward pool, payout from
the pool) are recorded in two history counters poolDeposited / poolPaidOut.
-/

namespace Billion

/-- Error codes of the program, from errors.rs.  The extra constructor
AccountNotInitialized models the Anchor framework error raised when the
ParcelInfo account for a requested parcel id does not exist (account
resolution happens before the handler body runs); it is not a BillionError
variant. -/
inductive Err where
  | BlockAlreadyClaimed
  | RingLocked
  | OutOfBounds
  | InvalidDimensions
  | InsufficientBalance
  | Unauthorized
  | SeedingDisabled
  | Overflow
  | CollectionNotSet
  | InvalidCollection
  | AssetMismatch
  | InvalidRewardPool
  | NotOwner
  | NothingToClaim
  | InvalidCoreAsset
  | AccountNotInitialized
  deriving DecidableEq, Repr

/-- GRID_SIZE from state/block_map.rs. -/
def GRID_SIZE : Nat := 100

/-- TOTAL_BLOCKS from state/block_map.rs. -/
def TOTAL_BLOCKS : Nat := GRID_SIZE * GRID_SIZE

/-- The fixed-point scale 1e9 used by the reward accumulator
(claim_parcel.rs line 212, claim_land_buy_rewards.rs line 105). -/
def SCALE : Nat := 1000000000

/-- Largest value of a Rust u16. -/
def U16MAX : Nat := 65535

/-- Largest value of a Rust u32. -/
def U32MAX : Nat := 4294967295

/-- Largest value of a Rust u64. -/
def U64MAX : Nat := 18446744073709551615

/-- Largest value of a Rust u128. -/
def U128MAX : Nat := 340282366920938463463374607431768211455

/-- get_ring from utils.rs lines 6-16.  All intermediate machine steps are
reproduced: the i16 subtraction from center = GRID_SIZE/2 = 50 followed by
unsigned_abs() is the absolute difference, and the `as u8` casts of dx and dy
truncate mod 256 (a no-op for u8 inputs, kept for exactness). -/
def get_ring (x y : Nat) : Nat :=
  let center := GRID_SIZE / 2
  let dx := (if center ≤ x then x - center else center - x) % 256
  let dy := (if center ≤ y then y - center else center - y) % 256
  let distance := max dx dy
  let raw_ring := distance / 5 + 1
  max (11 - min raw_ring 10) 1

/-- Overflow-checked variant of get_ring: returns none if the `as u8` casts
of dx/dy would truncate, if the u8 addition distance/5 + 1 would wrap, or if
the u8 subtraction 11 - min raw 10 would underflow.  Used to show the u8
arithmetic of get_ring never panics or wraps on u8 inputs. -/
def get_ring_checked (x y : Nat) : Option Nat :=
  let center := GRID_SIZE / 2
  let dx := if center ≤ x then x - center else center - x
  let dy := if center ≤ y then y - center else center - y
  if 256 ≤ dx ∨ 256 ≤ dy then none
  else
    let distance := max dx dy
    let raw_ring := distance / 5 + 1
    if 256 ≤ raw_ring then none
    else if 11 < min raw_ring 10 then none
    else some (max (11 - min raw_ring 10) 1)

/-- Loop body of get_unlocked_ring (utils.rs lines 19-26): scan the
enumerated threshold list from the end, returning (i+1) as u8 at the first
threshold that total_burned meets. -/
def get_unlocked_ring_aux (total_burned : Nat) : List (Nat × Nat) → Nat
  | [] => 1
  | (i, t) :: rest =>
      if t ≤ total_burned then (i + 1) % 256 else get_unlocked_ring_aux total_burned rest

/-- get_unlocked_ring from utils.rs lines 19-26. -/
def get_unlocked_ring (total_burned : Nat) (thresholds : List Nat) : Nat :=
  get_unlocked_ring_aux total_burned thresholds.enum.reverse

/-- One ParcelInfo account (state/parcel_info.rs), keyed by the parcel id used
as its PDA seed.  The asset pubkey and bump are opaque plumbing and omitted;
checkpoint is the field last_claimed_land_buy_rewards_per_block (u128). -/
structure ParcelRec where
  pid : Nat
  px : Nat
  py : Nat
  width : Nat
  height : Nat
  checkpoint : Nat
  deriving DecidableEq, Repr

/-- block_count from state/parcel_info.rs. -/
def ParcelRec.blockCount (p : ParcelRec) : Nat := p.width * p.height

/-- Flat index y * GRID_SIZE + x into the BlockMap blocks array
(state/block_map.rs get_block/set_block). -/
def blockIndex (x y : Nat) : Nat := y * GRID_SIZE + x

/-- BlockMap::get_block. The blocks array is modelled as a function from the
flat index to the stored u16 parcel id. -/
def getBlock (m : Nat → Nat) (x y : Nat) : Nat := m (blockIndex x y)

/-- BlockMap::set_block. -/
def setBlock (m : Nat → Nat) (x y pid : Nat) : Nat → Nat :=
  fun i => if i = blockIndex x y then pid else m i

/-- Combined on-chain state of the program: the GridConfig account
(state/grid_config.rs), the BlockMap account, and all live ParcelInfo
accounts.  The two final fields record the token CPIs touching the land-buy
reward pool: poolDeposited sums the reward_amount transfers made by
claim_parcel, poolPaidOut sums the owed transfers made by
claim_land_buy_rewards.  The pubkey-valued collection field is modelled as a
Nat with 0 standing for Pubkey::default(). -/
structure GridState where
  blocks : Nat → Nat
  collection : Nat
  seedingEnabled : Bool
  pricePerBlock : Nat
  ringThresholds : List Nat
  totalBurned : Nat
  nextParcelId : Nat
  uriBase : String
  accumulator : Nat
  totalClaimedBlocks : Nat
  rewardShareBps : Nat
  parcels : List ParcelRec
  poolDeposited : Nat
  poolPaidOut : Nat

/-- Inner loop of validate_claim (claim_parcel.rs lines 117-130) over one row:
for each dx, the ring check precedes the unclaimed check. -/
def validateClaimRow (m : Nat → Nat) (unlocked x rowy : Nat) : List Nat → Except Err Unit
  | [] => .ok ()
  | dx :: rest =>
      if ¬ get_ring (x + dx) rowy ≤ unlocked then .error .RingLocked
      else if ¬ getBlock m (x + dx) rowy = 0 then .error .BlockAlreadyClaimed
      else validateClaimRow m unlocked x rowy rest

/-- Outer loop of validate_claim over the rows dy = 0..height. -/
def validateClaimRows (m : Nat → Nat) (unlocked x y width : Nat) : List Nat → Except Err Unit
  | [] => .ok ()
  | dy :: rest =>
      match validateClaimRow m unlocked x (y + dy) (List.range width) with
      | .error e => .error e
      | .ok () => validateClaimRows m unlocked x y width rest

/-- validate_claim from claim_parcel.rs lines 92-133. -/
def validate_claim (x y width height : Nat) (m : Nat → Nat) (total_burned : Nat)
    (thresholds : List Nat) : Except Err Unit :=
  if ¬ (0 < width ∧ 0 < height) then .error .InvalidDimensions
  else if ¬ (x + width ≤ GRID_SIZE) then .error .OutOfBounds
  else if ¬ (y + height ≤ GRID_SIZE) then .error .OutOfBounds
  else validateClaimRows m (get_unlocked_ring total_burned thresholds) x y width
    (List.range height)

/-- Inner loop of validate_admin_mint (admin_mint.rs lines 84-93): only the
unclaimed check, no ring check. -/
def validateMintRow (m : Nat → Nat) (x rowy : Nat) : List Nat → Except Err Unit
  | [] => .ok ()
  | dx :: rest =>
      if ¬ getBlock m (x + dx) rowy = 0 then .error .BlockAlreadyClaimed
      else validateMintRow m x rowy rest

/-- Outer loop of validate_admin_mint over the rows. -/
def validateMintRows (m : Nat → Nat) (x y width : Nat) : List Nat → Except Err Unit
  | [] => .ok ()
  | dy :: rest =>
      match validateMintRow m x (y + dy) (List.range width) with
      | .error e => .error e
      | .ok () => validateMintRows m x y width rest

/-- validate_admin_mint from admin_mint.rs lines 63-96. -/
def validate_admin_mint (x y width height : Nat) (m : Nat → Nat) : Except Err Unit :=
  if ¬ (0 < width ∧ 0 < height) then .error .InvalidDimensions
  else if ¬ (x + width ≤ GRID_SIZE) then .error .OutOfBounds
  else if ¬ (y + height ≤ GRID_SIZE) then .error .OutOfBounds
  else validateMintRows m x y width (List.range height)

/-- One row of the block-assignment loop (claim_parcel.rs lines 243-250,
admin_mint.rs lines 146-154). -/
def assignRowBlocks (m : Nat → Nat) (x rowy pid : Nat) : List Nat → (Nat → Nat)
  | [] => m
  | dx :: rest => assignRowBlocks (setBlock m (x + dx) rowy pid) x rowy pid rest

/-- The full nested block-assignment loop writing pid to every cell of the
rectangle. -/
def assignRectBlocks (m : Nat → Nat) (x y pid width : Nat) : List Nat → (Nat → Nat)
  | [] => m
  | dy :: rest =>
      assignRectBlocks (assignRowBlocks m x (y + dy) pid (List.range width)) x y pid width rest

/-- The new accumulator value computed by claim_parcel.rs lines 208-221: the
reward contribution is distributed only when both the pre-purchase claimed
block count and the reward amount are positive. -/
def claimNewAcc (s : GridState) (reward_amount : Nat) : Nat :=
  if 0 < s.totalClaimedBlocks ∧ 0 < reward_amount then
    s.accumulator + reward_amount * SCALE / s.totalClaimedBlocks
  else s.accumulator

/-- Tail of the claim_parcel handler after the accumulator update
(claim_parcel.rs lines 223-295): the three checked additions, the block-map
assignment, and the creation of the ParcelInfo whose checkpoint is the
accumulator value after the contribution. -/
def claim_parcel_commit (s : GridState) (x y width height num_blocks burn_amount
    reward_amount acc : Nat) : Except Err GridState :=
  if ¬ (s.totalClaimedBlocks + num_blocks ≤ U32MAX) then .error .Overflow
  else if ¬ (s.totalBurned + burn_amount ≤ U64MAX) then .error .Overflow
  else if ¬ (s.nextParcelId + 1 ≤ U16MAX) then .error .Overflow
  else .ok { s with
    blocks := assignRectBlocks s.blocks x y s.nextParcelId width (List.range height),
    accumulator := acc,
    totalClaimedBlocks := s.totalClaimedBlocks + num_blocks,
    totalBurned := s.totalBurned + burn_amount,
    nextParcelId := s.nextParcelId + 1,
    parcels := s.parcels ++ [⟨s.nextParcelId, x, y, width, height, acc⟩],
    poolDeposited := s.poolDeposited + reward_amount }

/-- The claim_parcel handler (claim_parcel.rs lines 135-295) as one atomic
transaction: on any error nothing commits (Solana rollback), so errors carry
no state.  balance is the claimer token account amount; the reward-pool
transfer CPI is recorded in poolDeposited (a transfer of 0 is skipped by the
code and recorded here as adding 0).  The checked_div by the constant 10_000
cannot fail and is folded into the division. -/
def claim_parcel_tx (s : GridState) (x y width height balance : Nat) :
    Except Err GridState :=
  if s.collection = 0 then .error .CollectionNotSet
  else match validate_claim x y width height s.blocks s.totalBurned s.ringThresholds with
  | .error e => .error e
  | .ok () =>
    if ¬ (width * height ≤ U32MAX) then .error .Overflow
    else
      let num_blocks := width * height
      if ¬ (num_blocks * s.pricePerBlock ≤ U64MAX) then .error .Overflow
      else
        let total_cost := num_blocks * s.pricePerBlock
        if ¬ (total_cost * s.rewardShareBps ≤ U64MAX) then .error .Overflow
        else
          let reward_amount := total_cost * s.rewardShareBps / 10000
          if ¬ (reward_amount ≤ total_cost) then .error .Overflow
          else
            let burn_amount := total_cost - reward_amount
            if balance < total_cost then .error .InsufficientBalance
            else if 0 < s.totalClaimedBlocks ∧ 0 < reward_amount then
              if ¬ (reward_amount * SCALE ≤ U128MAX) then .error .Overflow
              else if s.totalClaimedBlocks = 0 then .error .Overflow
              else
                let inc := reward_amount * SCALE / s.totalClaimedBlocks
                if ¬ (s.accumulator + inc ≤ U128MAX) then .error .Overflow
                else claim_parcel_commit s x y width height num_blocks burn_amount
                  reward_amount (s.accumulator + inc)
            else claim_parcel_commit s x y width height num_blocks burn_amount
              reward_amount s.accumulator

/-- The admin_mint handler (admin_mint.rs lines 98-198) as one atomic
transaction: no payment, no burn, no reward contribution, ring check omitted;
the new ParcelInfo checkpoint is the current accumulator. -/
def admin_mint_tx (s : GridState) (x y width height : Nat) : Except Err GridState :=
  if s.collection = 0 then .error .CollectionNotSet
  else if ¬ s.seedingEnabled then .error .SeedingDisabled
  else match validate_admin_mint x y width height s.blocks with
  | .error e => .error e
  | .ok () =>
    if ¬ (width * height ≤ U32MAX) then .error .Overflow
    else if ¬ (s.totalClaimedBlocks + width * height ≤ U32MAX) then .error .Overflow
    else if ¬ (s.nextParcelId + 1 ≤ U16MAX) then .error .Overflow
    else .ok { s with
      blocks := assignRectBlocks s.blocks x y s.nextParcelId width (List.range height),
      totalClaimedBlocks := s.totalClaimedBlocks + width * height,
      nextParcelId := s.nextParcelId + 1,
      parcels := s.parcels ++ [⟨s.nextParcelId, x, y, width, height, s.accumulator⟩] }

/-- The claim_land_buy_rewards handler (claim_land_buy_rewards.rs lines
86-146) as one atomic transaction.  The ParcelInfo account is resolved by
parcel id (its PDA seed); claimerOwnsAsset is the result of the Metaplex
ownership check on the parcel asset.  The payout transfer CPI is recorded in
poolPaidOut.  The checked_div by the constant 1e9 cannot fail and is folded
into the division. -/
def claim_land_buy_rewards_tx (s : GridState) (parcel_id : Nat)
    (claimerOwnsAsset : Bool) : Except Err GridState :=
  match s.parcels.find? (fun p => p.pid = parcel_id) with
  | none => .error .AccountNotInitialized
  | some p =>
    if ¬ claimerOwnsAsset then .error .NotOwner
    else if s.accumulator < p.checkpoint then .error .Overflow
    else
      let delta := s.accumulator - p.checkpoint
      if ¬ (p.blockCount * delta ≤ U128MAX) then .error .Overflow
      else
        let owed := p.blockCount * delta / SCALE
        if ¬ (owed ≤ U64MAX) then .error .Overflow
        else if owed = 0 then .error .NothingToClaim
        else .ok { s with
          parcels := s.parcels.map (fun q =>
            if q.pid = parcel_id then { q with checkpoint := s.accumulator } else q),
          poolPaidOut := s.poolPaidOut + owed }

/-- The update_config handler (update_config.rs lines 20-65): each Some
argument overwrites the corresponding field, authority-gated; no validation
is performed on any field.  The collection option is a pubkey (0 =
Pubkey::default()). -/
def update_config_tx (s : GridState) (price : Option Nat) (thresholds : Option (List Nat))
    (uri : Option String) (seeding : Option Bool) (collection : Option Nat)
    (bps : Option Nat) (burned : Option Nat) : GridState :=
  { s with
    pricePerBlock := price.getD s.pricePerBlock,
    ringThresholds := thresholds.getD s.ringThresholds,
    uriBase := uri.getD s.uriBase,
    seedingEnabled := seeding.getD s.seedingEnabled,
    collection := collection.getD s.collection,
    rewardShareBps := bps.getD s.rewardShareBps,
    totalBurned := burned.getD s.totalBurned }

/-- The state written by the initialize handler (initialize.rs lines 47-84):
all-zero block map (created zeroed by create_block_map), collection unset,
seeding enabled, next parcel id 1 (0 means unclaimed), accumulator and both
totals zero; price, thresholds, uri and reward share are caller-supplied and
stored without validation. -/
def initState (price : Nat) (thresholds : List Nat) (uri : String) (bps : Nat) : GridState :=
  { blocks := fun _ => 0
    collection := 0
    seedingEnabled := true
    pricePerBlock := price
    ringThresholds := thresholds
    totalBurned := 0
    nextParcelId := 1
    uriBase := uri
    accumulator := 0
    totalClaimedBlocks := 0
    rewardShareBps := bps
    parcels := []
    poolDeposited := 0
    poolPaidOut := 0 }

/-- The operations of the program that touch the grid/config/parcel state. -/
inductive Op where
  | claim (x y width height balance : Nat)
  | mint (x y width height : Nat)
  | settle (parcel_id : Nat) (owns : Bool)
  | config (price : Option Nat) (thresholds : Option (List Nat)) (uri : Option String)
      (seeding : Option Bool) (collection : Option Nat) (bps : Option Nat)
      (burned : Option Nat)

/-- True exactly for update_config operations. -/
def Op.isConfig : Op → Bool
  | .config .. => true
  | _ => false

/-- Transactional semantics of one operation: a failed instruction commits
nothing (the Solana transaction aborts and every account keeps its prior
contents). -/
def stepOp (op : Op) (s : GridState) : GridState :=
  match op with
  | .claim x y w h bal =>
      match claim_parcel_tx s x y w h bal with
      | .ok s2 => s2
      | .error _ => s
  | .mint x y w h =>
      match admin_mint_tx s x y w h with
      | .ok s2 => s2
      | .error _ => s
  | .settle pid owns =>
      match claim_land_buy_rewards_tx s pid owns with
      | .ok s2 => s2
      | .error _ => s
  | .config a b c d e f g => update_config_tx s a b c d e f g

/-- Run a sequence of operations from a start state. -/
def steps : List Op → GridState → GridState
  | [], s => s
  | op :: rest, s => steps rest (stepOp op s)

/-- True when the operation is an update_config carrying no reward-share value
above 10000 basis points. -/
def Op.bpsBounded : Op → Prop
  | .config _ _ _ _ _ (some b) _ => b ≤ 10000
  | _ => True

/-- Example run: set the collection, then admin-mint two adjacent 1 x 1
parcels at (0,0) and (1,0). -/
def exAllocOps : List Op :=
  [.config none none none none (some 1) none none, .mint 0 0 1 1, .mint 1 0 1 1]

/-- Example state with 100 cells already claimed, price 1000 per block and a
100 percent reward share, so that a 1 x 1 claim contributes reward_amount
1000. -/
def exClaimState : GridState :=
  { initState 1000 [0] "" 10000 with collection := 1, totalClaimedBlocks := 100 }

/-- Example state reached by admin-minting the center cell (50,50) while no
ring beyond 1 is unlocked (empty threshold list). -/
def exRingLockedState : GridState :=
  steps [.config none none none none (some 1) none none, .mint 50 50 1 1]
    (initState 1 [] "" 0)

/-- Example state reached by admin-minting the corner cell (0,0), which lies
in ring 1 and therefore always passes the ring check. -/
def exBlockedState : GridState :=
  steps [.config none none none none (some 1) none none, .mint 0 0 1 1]
    (initState 1 [0] "" 0)

/-- Example state holding one 2 x 5 parcel (10 cells) with checkpoint 0 while
the accumulator is 10^10, so settling pays 10 * 10^10 / 10^9 = 100. -/
def exSettleState : GridState :=
  { initState 5 [] "" 0 with
      collection := 1
      accumulator := 10000000000
      totalClaimedBlocks := 10
      parcels := [⟨1, 0, 0, 2, 5, 0⟩] }

/-- A cell (cx, cy) lies in the rectangle of parcel p. -/
def cellInParcel (p : ParcelRec) (cx cy : Nat) : Prop :=
  p.px ≤ cx ∧ cx < p.px + p.width ∧ p.py ≤ cy ∧ cy < p.py + p.height

instance (p : ParcelRec) (cx cy : Nat) : Decidable (cellInParcel p cx cy) := by
  unfold cellInParcel
  infer_instance

lemma sum_map_add {α : Type} (l : List α) (f g : α → Nat) :
    (l.map fun a => f a + g a).sum = (l.map f).sum + (l.map g).sum := by
  induction l with
  | nil => simp
  | cons a t ih => simp [ih]; omega

lemma sum_map_mul_right {α : Type} (l : List α) (f : α → Nat) (k : Nat) :
    (l.map fun a => f a * k).sum = (l.map f).sum * k := by
  induction l with
  | nil => simp
  | cons a t ih => simp [ih]; ring

lemma sum_map_if_zero_le {α : Type} (l : List α) (p : α → Bool) (g : α → Nat) (a : α)
    (ha : a ∈ l) (hpa : p a = true) :
    (l.map fun q => if p q then 0 else g q).sum + g a ≤ (l.map g).sum := by
  induction l with
  | nil => cases ha
  | cons b t ih =>
      have hpt : (t.map fun q => if p q then 0 else g q).sum ≤ (t.map g).sum := by
        apply List.sum_le_sum
        intro q hq
        split <;> omega
      rcases List.mem_cons.mp ha with rfl | hat
      · simp only [List.map_cons, List.sum_cons, hpa, if_true]
        omega
      · have := ih hat
        simp only [List.map_cons, List.sum_cons]
        split <;> omega

lemma assignRowBlocks_get (x rowy pid : Nat) :
    ∀ (l : List Nat) (m : Nat → Nat) (i : Nat),
      assignRowBlocks m x rowy pid l i =
        if ∃ dx ∈ l, i = blockIndex (x + dx) rowy then pid else m i := by
  intro l
  induction l with
  | nil => intro m i; simp [assignRowBlocks]
  | cons dx rest ih =>
      intro m i
      simp only [assignRowBlocks, ih, setBlock]
      by_cases hrest : ∃ d ∈ rest, i = blockIndex (x + d) rowy
      · obtain ⟨d, hd, hi⟩ := hrest
        rw [if_pos ⟨d, hd, hi⟩, if_pos ⟨d, List.mem_cons_of_mem dx hd, hi⟩]
      · rw [if_neg hrest]
        by_cases hhd : i = blockIndex (x + dx) rowy
        · rw [if_pos hhd, if_pos ⟨dx, List.mem_cons_self dx rest, hhd⟩]
        · rw [if_neg hhd, if_neg]
          rintro ⟨d, hd, hi⟩
          rcases List.mem_cons.mp hd with rfl | hd2
          · exact hhd hi
          · exact hrest ⟨d, hd2, hi⟩

lemma assignRectBlocks_get (x y pid width : Nat) :
    ∀ (l : List Nat) (m : Nat → Nat) (i : Nat),
      assignRectBlocks m x y pid width l i =
        if ∃ dy ∈ l, ∃ dx ∈ List.range width, i = blockIndex (x + dx) (y + dy) then pid
        else m i := by
  intro l
  induction l with
  | nil => intro m i; simp [assignRectBlocks]
  | cons dy rest ih =>
      intro m i
      simp only [assignRectBlocks, ih, assignRowBlocks_get]
      by_cases hrest : ∃ d ∈ rest, ∃ dx ∈ List.range width, i = blockIndex (x + dx) (y + d)
      · obtain ⟨d, hd, dx, hdx, hi⟩ := hrest
        rw [if_pos ⟨d, hd, dx, hdx, hi⟩,
          if_pos ⟨d, List.mem_cons_of_mem dy hd, dx, hdx, hi⟩]
      · rw [if_neg hrest]
        by_cases hhd : ∃ dx ∈ List.range width, i = blockIndex (x + dx) (y + dy)
        · obtain ⟨dx, hdx, hi⟩ := hhd
          rw [if_pos ⟨dx, hdx, hi⟩, if_pos ⟨dy, List.mem_cons_self dy rest, dx, hdx, hi⟩]
        · rw [if_neg hhd, if_neg]
          rintro ⟨d, hd, dx, hdx, hi⟩
          rcases List.mem_cons.mp hd with rfl | hd2
          · exact hhd ⟨dx, hdx, hi⟩
          · exact hrest ⟨d, hd2, dx, hdx, hi⟩

lemma validateClaimRow_ok_iff (m : Nat → Nat) (u x rowy : Nat) (l : List Nat) :
    validateClaimRow m u x rowy l = .ok () ↔
      ∀ dx ∈ l, get_ring (x + dx) rowy ≤ u ∧ getBlock m (x + dx) rowy = 0 := by
  induction l with
  | nil => simp [validateClaimRow]
  | cons dx rest ih =>
      by_cases h1 : get_ring (x + dx) rowy ≤ u
      · by_cases h2 : getBlock m (x + dx) rowy = 0
        · simp [validateClaimRow, h1, h2, ih, List.forall_mem_cons]
        · simp [validateClaimRow, h1, h2, List.forall_mem_cons]
      · simp [validateClaimRow, h1, List.forall_mem_cons]

lemma validateClaimRows_ok_iff (m : Nat → Nat) (u x y width : Nat) (l : List Nat) :
    validateClaimRows m u x y width l = .ok () ↔
      ∀ dy ∈ l, ∀ dx ∈ List.range width,
        get_ring (x + dx) (y + dy) ≤ u ∧ getBlock m (x + dx) (y + dy) = 0 := by
  induction l with
  | nil => simp [validateClaimRows]
  | cons dy rest ih =>
      simp only [validateClaimRows]
      cases hrow : validateClaimRow m u x (y + dy) (List.range width) with
      | error e =>
          simp only [List.forall_mem_cons]
          constructor
          · intro h; cases h
          · intro h
            have h2 := (validateClaimRow_ok_iff m u x (y + dy) (List.range width)).mpr h.1
            rw [hrow] at h2; cases h2
      | ok u2 =>
          cases u2
          rw [ih]
          simp only [List.forall_mem_cons]
          constructor
          · intro h
            exact ⟨(validateClaimRow_ok_iff m u x (y + dy) (List.range width)).mp hrow, h⟩
          · intro h
            exact h.2

lemma validate_claim_ok_iff (x y width height : Nat) (m : Nat → Nat) (tb : Nat)
    (th : List Nat) :
    validate_claim x y width height m tb th = .ok () ↔
      (0 < width ∧ 0 < height) ∧ x + width ≤ GRID_SIZE ∧ y + height ≤ GRID_SIZE ∧
      ∀ dy < height, ∀ dx < width,
        get_ring (x + dx) (y + dy) ≤ get_unlocked_ring tb th ∧
        getBlock m (x + dx) (y + dy) = 0 := by
  by_cases h1 : 0 < width ∧ 0 < height
  · by_cases h2 : x + width ≤ GRID_SIZE
    · by_cases h3 : y + height ≤ GRID_SIZE
      · simp [validate_claim, h1, h2, h3, validateClaimRows_ok_iff, List.mem_range]
      · simp [validate_claim, h1, h2, h3]
    · simp [validate_claim, h1, h2]
  · simp [validate_claim, h1]

lemma validateClaimRow_blocked (m : Nat → Nat) (u x rowy : Nat) (l : List Nat)
    (hr : ∀ dx ∈ l, get_ring (x + dx) rowy ≤ u)
    (hb : ∃ dx ∈ l, getBlock m (x + dx) rowy ≠ 0) :
    validateClaimRow m u x rowy l = .error .BlockAlreadyClaimed := by
  induction l with
  | nil => rcases hb with ⟨d, hd, _⟩; cases hd
  | cons dx rest ih =>
      have h1 : get_ring (x + dx) rowy ≤ u := hr dx (List.mem_cons_self dx rest)
      by_cases h2 : getBlock m (x + dx) rowy = 0
      · have hb2 : ∃ d ∈ rest, getBlock m (x + d) rowy ≠ 0 := by
          rcases hb with ⟨d, hd, hnz⟩
          rcases List.mem_cons.mp hd with rfl | hd2
          · exact absurd h2 hnz
          · exact ⟨d, hd2, hnz⟩
        simp [validateClaimRow, h1, h2,
          ih (fun d hd => hr d (List.mem_cons_of_mem dx hd)) hb2]
      · simp [validateClaimRow, h1, h2]

lemma validateClaimRows_blocked (m : Nat → Nat) (u x y width : Nat) (l : List Nat)
    (hr : ∀ dy ∈ l, ∀ dx ∈ List.range width, get_ring (x + dx) (y + dy) ≤ u)
    (hb : ∃ dy ∈ l, ∃ dx ∈ List.range width, getBlock m (x + dx) (y + dy) ≠ 0) :
    validateClaimRows m u x y width l = .error .BlockAlreadyClaimed := by
  induction l with
  | nil => rcases hb with ⟨d, hd, _⟩; cases hd
  | cons dy rest ih =>
      by_cases hrow : ∃ dx ∈ List.range width, getBlock m (x + dx) (y + dy) ≠ 0
      · have := validateClaimRow_blocked m u x (y + dy) (List.range width)
          (hr dy (List.mem_cons_self dy rest)) hrow
        simp [validateClaimRows, this]
      · push_neg at hrow
        have hok : validateClaimRow m u x (y + dy) (List.range width) = .ok () :=
          (validateClaimRow_ok_iff m u x (y + dy) (List.range width)).mpr
            (fun d hd => ⟨hr dy (List.mem_cons_self dy rest) d hd, hrow d hd⟩)
        have hb2 : ∃ d ∈ rest, ∃ dx ∈ List.range width, getBlock m (x + dx) (y + d) ≠ 0 := by
          rcases hb with ⟨d, hd, dx, hdx, hnz⟩
          rcases List.mem_cons.mp hd with rfl | hd2
          · exact absurd (hrow dx hdx) hnz
          · exact ⟨d, hd2, dx, hdx, hnz⟩
        simp [validateClaimRows, hok,
          ih (fun d hd => hr d (List.mem_cons_of_mem dy hd)) hb2]

lemma validate_claim_blocked (x y width height : Nat) (m : Nat → Nat) (tb : Nat)
    (th : List Nat) (hbx : x + width ≤ GRID_SIZE) (hby : y + height ≤ GRID_SIZE)
    (hr : ∀ dy < height, ∀ dx < width,
      get_ring (x + dx) (y + dy) ≤ get_unlocked_ring tb th)
    (dx0 dy0 : Nat) (hdx0 : dx0 < width) (hdy0 : dy0 < height)
    (hnz : getBlock m (x + dx0) (y + dy0) ≠ 0) :
    validate_claim x y width height m tb th = .error .BlockAlreadyClaimed := by
  have hw : 0 < width := Nat.pos_of_ne_zero (by omega)
  have hh : 0 < height := Nat.pos_of_ne_zero (by omega)
  have hrows := validateClaimRows_blocked m (get_unlocked_ring tb th) x y width
    (List.range height)
    (fun dy hdy dx hdx => hr dy (List.mem_range.mp hdy) dx (List.mem_range.mp hdx))
    ⟨dy0, List.mem_range.mpr hdy0, dx0, List.mem_range.mpr hdx0, hnz⟩
  simp [validate_claim, hw, hh, hbx, hby, hrows]

lemma validateMintRow_ok_iff (m : Nat → Nat) (x rowy : Nat) (l : List Nat) :
    validateMintRow m x rowy l = .ok () ↔ ∀ dx ∈ l, getBlock m (x + dx) rowy = 0 := by
  induction l with
  | nil => simp [validateMintRow]
  | cons dx rest ih =>
      by_cases h1 : getBlock m (x + dx) rowy = 0
      · simp [validateMintRow, h1, ih, List.forall_mem_cons]
      · simp [validateMintRow, h1, List.forall_mem_cons]

lemma validateMintRows_ok_iff (m : Nat → Nat) (x y width : Nat) (l : List Nat) :
    validateMintRows m x y width l = .ok () ↔
      ∀ dy ∈ l, ∀ dx ∈ List.range width, getBlock m (x + dx) (y + dy) = 0 := by
  induction l with
  | nil => simp [validateMintRows]
  | cons dy rest ih =>
      simp only [validateMintRows]
      cases hrow : validateMintRow m x (y + dy) (List.range width) with
      | error e =>
          simp only [List.forall_mem_cons]
          constructor
          · intro h; cases h
          · intro h
            have h2 := (validateMintRow_ok_iff m x (y + dy) (List.range width)).mpr h.1
            rw [hrow] at h2; cases h2
      | ok u2 =>
          cases u2
          rw [ih]
          simp only [List.forall_mem_cons]
          constructor
          · intro h
            exact ⟨(validateMintRow_ok_iff m x (y + dy) (List.range width)).mp hrow, h⟩
          · intro h
            exact h.2

lemma validate_admin_mint_ok_iff (x y width height : Nat) (m : Nat → Nat) :
    validate_admin_mint x y width height m = .ok () ↔
      (0 < width ∧ 0 < height) ∧ x + width ≤ GRID_SIZE ∧ y + height ≤ GRID_SIZE ∧
      ∀ dy < height, ∀ dx < width, getBlock m (x + dx) (y + dy) = 0 := by
  by_cases h1 : 0 < width ∧ 0 < height
  · by_cases h2 : x + width ≤ GRID_SIZE
    · by_cases h3 : y + height ≤ GRID_SIZE
      · simp [validate_admin_mint, h1, h2, h3, validateMintRows_ok_iff, List.mem_range]
      · simp [validate_admin_mint, h1, h2, h3]
    · simp [validate_admin_mint, h1, h2]
  · simp [validate_admin_mint, h1]

lemma claim_parcel_commit_ok {s s' : GridState} {x y width height nb ba ra acc : Nat}
    (h : claim_parcel_commit s x y width height nb ba ra acc = .ok s') :
    s' = { s with
      blocks := assignRectBlocks s.blocks x y s.nextParcelId width (List.range height),
      accumulator := acc,
      totalClaimedBlocks := s.totalClaimedBlocks + nb,
      totalBurned := s.totalBurned + ba,
      nextParcelId := s.nextParcelId + 1,
      parcels := s.parcels ++ [⟨s.nextParcelId, x, y, width, height, acc⟩],
      poolDeposited := s.poolDeposited + ra } := by
  unfold claim_parcel_commit at h
  split at h
  · cases h
  · split at h
    · cases h
    · split at h
      · cases h
      · exact ((Except.ok.injEq _ _).mp h).symm

lemma claim_parcel_tx_ok {s s' : GridState} {x y width height balance : Nat}
    (h : claim_parcel_tx s x y width height balance = .ok s') :
    s.collection ≠ 0 ∧
    validate_claim x y width height s.blocks s.totalBurned s.ringThresholds = .ok () ∧
    width * height * s.pricePerBlock * s.rewardShareBps ≤ U64MAX ∧
    s' = { s with
      blocks := assignRectBlocks s.blocks x y s.nextParcelId width (List.range height),
      accumulator := claimNewAcc s
        (width * height * s.pricePerBlock * s.rewardShareBps / 10000),
      totalClaimedBlocks := s.totalClaimedBlocks + width * height,
      totalBurned := s.totalBurned + (width * height * s.pricePerBlock -
        width * height * s.pricePerBlock * s.rewardShareBps / 10000),
      nextParcelId := s.nextParcelId + 1,
      parcels := s.parcels ++ [⟨s.nextParcelId, x, y, width, height,
        claimNewAcc s (width * height * s.pricePerBlock * s.rewardShareBps / 10000)⟩],
      poolDeposited := s.poolDeposited +
        width * height * s.pricePerBlock * s.rewardShareBps / 10000 } := by
  unfold claim_parcel_tx at h
  by_cases hcol : s.collection = 0
  · rw [if_pos hcol] at h; cases h
  · rw [if_neg hcol] at h
    refine ⟨hcol, ?_⟩
    cases hv : validate_claim x y width height s.blocks s.totalBurned s.ringThresholds with
    | error e => rw [hv] at h; cases h
    | ok u =>
        cases u
        rw [hv] at h
        dsimp only at h
        refine ⟨rfl, ?_⟩
        by_cases h1 : width * height ≤ U32MAX
        · rw [if_neg (not_not.mpr h1)] at h
          by_cases h2 : width * height * s.pricePerBlock ≤ U64MAX
          · rw [if_neg (not_not.mpr h2)] at h
            by_cases h3 : width * height * s.pricePerBlock * s.rewardShareBps ≤ U64MAX
            · rw [if_neg (not_not.mpr h3)] at h
              refine ⟨h3, ?_⟩
              by_cases h4 : width * height * s.pricePerBlock * s.rewardShareBps / 10000 ≤
                  width * height * s.pricePerBlock
              · rw [if_neg (not_not.mpr h4)] at h
                by_cases h5 : balance < width * height * s.pricePerBlock
                · rw [if_pos h5] at h; cases h
                · rw [if_neg h5] at h
                  by_cases hacc : 0 < s.totalClaimedBlocks ∧
                      0 < width * height * s.pricePerBlock * s.rewardShareBps / 10000
                  · rw [if_pos hacc] at h
                    by_cases h6 : width * height * s.pricePerBlock * s.rewardShareBps / 10000 *
                        SCALE ≤ U128MAX
                    · rw [if_neg (not_not.mpr h6)] at h
                      rw [if_neg (by omega : ¬ s.totalClaimedBlocks = 0)] at h
                      by_cases h7 : s.accumulator +
                          width * height * s.pricePerBlock * s.rewardShareBps / 10000 * SCALE /
                            s.totalClaimedBlocks ≤ U128MAX
                      · rw [if_neg (not_not.mpr h7)] at h
                        rw [claim_parcel_commit_ok h]
                        simp [claimNewAcc, hacc]
                      · rw [if_pos h7] at h
                        cases h
                    · rw [if_pos h6] at h
                      cases h
                  · rw [if_neg hacc] at h
                    rw [claim_parcel_commit_ok h]
                    simp [claimNewAcc, hacc]
              · rw [if_pos h4] at h; cases h
            · rw [if_pos h3] at h; cases h
          · rw [if_pos h2] at h; cases h
        · rw [if_pos h1] at h; cases h

lemma admin_mint_tx_ok {s s' : GridState} {x y width height : Nat}
    (h : admin_mint_tx s x y width height = .ok s') :
    s.collection ≠ 0 ∧ s.seedingEnabled = true ∧
    validate_admin_mint x y width height s.blocks = .ok () ∧
    s' = { s with
      blocks := assignRectBlocks s.blocks x y s.nextParcelId width (List.range height),
      totalClaimedBlocks := s.totalClaimedBlocks + width * height,
      nextParcelId := s.nextParcelId + 1,
      parcels := s.parcels ++
        [⟨s.nextParcelId, x, y, width, height, s.accumulator⟩] } := by
  unfold admin_mint_tx at h
  by_cases hcol : s.collection = 0
  · rw [if_pos hcol] at h; cases h
  · rw [if_neg hcol] at h
    by_cases hsd : s.seedingEnabled
    · rw [if_neg (not_not.mpr hsd)] at h
      refine ⟨hcol, hsd, ?_⟩
      cases hv : validate_admin_mint x y width height s.blocks with
      | error e => rw [hv] at h; cases h
      | ok u =>
          cases u
          rw [hv] at h
          refine ⟨rfl, ?_⟩
          by_cases h1 : width * height ≤ U32MAX
          · rw [if_neg (not_not.mpr h1)] at h
            by_cases h2 : s.totalClaimedBlocks + width * height ≤ U32MAX
            · rw [if_neg (not_not.mpr h2)] at h
              by_cases h3 : s.nextParcelId + 1 ≤ U16MAX
              · rw [if_neg (not_not.mpr h3)] at h
                exact ((Except.ok.injEq _ _).mp h).symm
              · rw [if_pos h3] at h; cases h
            · rw [if_pos h2] at h; cases h
          · rw [if_pos h1] at h; cases h
    · rw [if_pos hsd] at h; cases h

lemma claim_land_buy_rewards_tx_ok {s s' : GridState} {pid : Nat} {owns : Bool}
    (h : claim_land_buy_rewards_tx s pid owns = .ok s') :
    ∃ p, s.parcels.find? (fun q => q.pid = pid) = some p ∧
      owns = true ∧ p.checkpoint ≤ s.accumulator ∧
      0 < p.blockCount * (s.accumulator - p.checkpoint) / SCALE ∧
      p.blockCount * (s.accumulator - p.checkpoint) / SCALE ≤ U64MAX ∧
      s' = { s with
        parcels := s.parcels.map (fun q =>
          if q.pid = pid then { q with checkpoint := s.accumulator } else q),
        poolPaidOut := s.poolPaidOut +
          p.blockCount * (s.accumulator - p.checkpoint) / SCALE } := by
  unfold claim_land_buy_rewards_tx at h
  cases hf : s.parcels.find? (fun q => q.pid = pid) with
  | none => rw [hf] at h; cases h
  | some p =>
      rw [hf] at h
      dsimp only at h
      refine ⟨p, rfl, ?_⟩
      by_cases how : owns
      · rw [if_neg (not_not.mpr how)] at h
        by_cases hcp : s.accumulator < p.checkpoint
        · rw [if_pos hcp] at h; cases h
        · rw [if_neg hcp] at h
          refine ⟨by simpa using how, by omega, ?_⟩
          by_cases h1 : p.blockCount * (s.accumulator - p.checkpoint) ≤ U128MAX
          · rw [if_neg (not_not.mpr h1)] at h
            by_cases h2 : p.blockCount * (s.accumulator - p.checkpoint) / SCALE ≤ U64MAX
            · rw [if_neg (not_not.mpr h2)] at h
              by_cases h3 : p.blockCount * (s.accumulator - p.checkpoint) / SCALE = 0
              · rw [if_pos h3] at h; cases h
              · rw [if_neg h3] at h
                exact ⟨Nat.pos_of_ne_zero h3, h2, ((Except.ok.injEq _ _).mp h).symm⟩
            · rw [if_pos h2] at h; cases h
          · rw [if_pos h1] at h; cases h
      · rw [if_pos how] at h; cases h

/-- The inductive invariant of the program state: parcel ids are positive,
below the next-id counter and unique; every parcel rectangle is a positive
in-bounds rectangle all of whose cells carry the parcel id in the block map;
total_claimed_blocks is the total cell count of the allocated parcels; every
checkpoint is at most the accumulator; and the scaled outstanding debt plus
everything already paid out never exceeds what was deposited. -/
structure Inv (s : GridState) : Prop where
  npid_pos : 1 ≤ s.nextParcelId
  pid_lb : ∀ p ∈ s.parcels, 1 ≤ p.pid
  pid_ub : ∀ p ∈ s.parcels, p.pid < s.nextParcelId
  dims_pos : ∀ p ∈ s.parcels, 0 < p.width ∧ 0 < p.height
  in_bounds : ∀ p ∈ s.parcels, p.px + p.width ≤ GRID_SIZE ∧ p.py + p.height ≤ GRID_SIZE
  covers : ∀ p ∈ s.parcels, ∀ cx cy, cellInParcel p cx cy → getBlock s.blocks cx cy = p.pid
  pid_inj : ∀ p ∈ s.parcels, ∀ q ∈ s.parcels, p.pid = q.pid → p = q
  claimed_sum : s.totalClaimedBlocks = (s.parcels.map ParcelRec.blockCount).sum
  cp_le : ∀ p ∈ s.parcels, p.checkpoint ≤ s.accumulator
  conserve : s.poolPaidOut * SCALE +
      (s.parcels.map (fun p => p.blockCount * (s.accumulator - p.checkpoint))).sum ≤
      s.poolDeposited * SCALE

lemma getBlock_assignRect (m : Nat → Nat) (x y pid width height cx cy : Nat)
    (hbx : x + width ≤ GRID_SIZE) (hcx : cx < GRID_SIZE) :
    getBlock (assignRectBlocks m x y pid width (List.range height)) cx cy =
      if x ≤ cx ∧ cx < x + width ∧ y ≤ cy ∧ cy < y + height then pid
      else getBlock m cx cy := by
  unfold getBlock
  rw [assignRectBlocks_get]
  by_cases hin : x ≤ cx ∧ cx < x + width ∧ y ≤ cy ∧ cy < y + height
  · rw [if_pos hin, if_pos]
    refine ⟨cy - y, List.mem_range.mpr (by omega), cx - x, List.mem_range.mpr (by omega), ?_⟩
    simp only [blockIndex, GRID_SIZE]
    omega
  · rw [if_neg hin, if_neg]
    rintro ⟨dy', hdy', dx', hdx', hidx⟩
    rw [List.mem_range] at hdy' hdx'
    simp only [blockIndex, GRID_SIZE] at hidx
    simp only [GRID_SIZE] at hbx hcx
    exact hin (by omega)

lemma inv_alloc {s : GridState} (x y width height acc2 dep burn : Nat)
    (hI : Inv s)
    (hw : 0 < width) (hh : 0 < height)
    (hbx : x + width ≤ GRID_SIZE) (hby : y + height ≤ GRID_SIZE)
    (hzero : ∀ dy < height, ∀ dx < width, getBlock s.blocks (x + dx) (y + dy) = 0)
    (hA : s.accumulator ≤ acc2)
    (hcons : s.totalClaimedBlocks * (acc2 - s.accumulator) ≤ dep * SCALE) :
    Inv { s with
      blocks := assignRectBlocks s.blocks x y s.nextParcelId width (List.range height),
      accumulator := acc2,
      totalClaimedBlocks := s.totalClaimedBlocks + width * height,
      totalBurned := s.totalBurned + burn,
      nextParcelId := s.nextParcelId + 1,
      parcels := s.parcels ++ [⟨s.nextParcelId, x, y, width, height, acc2⟩],
      poolDeposited := s.poolDeposited + dep } := by
  have hmem : ∀ p : ParcelRec,
      p ∈ s.parcels ++ [⟨s.nextParcelId, x, y, width, height, acc2⟩] ↔
      p ∈ s.parcels ∨ p = ⟨s.nextParcelId, x, y, width, height, acc2⟩ := by
    intro p
    simp [List.mem_append]
  have holdblock : ∀ p ∈ s.parcels, ∀ cx cy, cellInParcel p cx cy →
      getBlock (assignRectBlocks s.blocks x y s.nextParcelId width (List.range height))
        cx cy = p.pid := by
    intro p hp cx cy hcell
    obtain ⟨hc1, hc2, hc3, hc4⟩ := hcell
    have hcx : cx < GRID_SIZE := by
      have := (hI.in_bounds p hp).1
      omega
    rw [getBlock_assignRect s.blocks x y s.nextParcelId width height cx cy hbx hcx]
    rw [if_neg, hI.covers p hp cx cy ⟨hc1, hc2, hc3, hc4⟩]
    rintro ⟨hn1, hn2, hn3, hn4⟩
    have h0 : getBlock s.blocks cx cy = 0 := by
      have := hzero (cy - y) (by omega) (cx - x) (by omega)
      have hx2 : x + (cx - x) = cx := by omega
      have hy2 : y + (cy - y) = cy := by omega
      rwa [hx2, hy2] at this
    have hpid : getBlock s.blocks cx cy = p.pid := hI.covers p hp cx cy ⟨hc1, hc2, hc3, hc4⟩
    have := hI.pid_lb p hp
    omega
  refine
    { npid_pos := ?_, pid_lb := ?_, pid_ub := ?_, dims_pos := ?_, in_bounds := ?_,
      covers := ?_, pid_inj := ?_, claimed_sum := ?_, cp_le := ?_, conserve := ?_ }
  · show 1 ≤ s.nextParcelId + 1
    omega
  · intro p hp
    rcases (hmem p).mp hp with hold | rfl
    · exact hI.pid_lb p hold
    · exact hI.npid_pos
  · intro p hp
    show p.pid < s.nextParcelId + 1
    rcases (hmem p).mp hp with hold | rfl
    · have := hI.pid_ub p hold
      omega
    · show s.nextParcelId < s.nextParcelId + 1
      omega
  · intro p hp
    rcases (hmem p).mp hp with hold | rfl
    · exact hI.dims_pos p hold
    · exact ⟨hw, hh⟩
  · intro p hp
    rcases (hmem p).mp hp with hold | rfl
    · exact hI.in_bounds p hold
    · exact ⟨hbx, hby⟩
  · intro p hp cx cy hcell
    rcases (hmem p).mp hp with hold | rfl
    · exact holdblock p hold cx cy hcell
    · obtain ⟨hc1, hc2, hc3, hc4⟩ := hcell
      have hc1a : x ≤ cx := hc1
      have hc2a : cx < x + width := hc2
      have hc3a : y ≤ cy := hc3
      have hc4a : cy < y + height := hc4
      have hcx : cx < GRID_SIZE := by omega
      show getBlock (assignRectBlocks s.blocks x y s.nextParcelId width (List.range height))
        cx cy = s.nextParcelId
      rw [getBlock_assignRect s.blocks x y s.nextParcelId width height cx cy hbx hcx,
        if_pos ⟨hc1a, hc2a, hc3a, hc4a⟩]
  · intro p hp q hq hpq
    rcases (hmem p).mp hp with holdp | rfl <;> rcases (hmem q).mp hq with holdq | rfl
    · exact hI.pid_inj p holdp q holdq hpq
    · have hlt := hI.pid_ub p holdp
      have hpq2 : p.pid = s.nextParcelId := hpq
      omega
    · have hlt := hI.pid_ub q holdq
      have hpq2 : s.nextParcelId = q.pid := hpq
      omega
    · rfl
  · show s.totalClaimedBlocks + width * height =
      ((s.parcels ++ [(⟨s.nextParcelId, x, y, width, height, acc2⟩ : ParcelRec)]).map
        ParcelRec.blockCount).sum
    have hcs := hI.claimed_sum
    rw [List.map_append, List.sum_append]
    simp only [ParcelRec.blockCount, List.map_cons, List.map_nil, List.sum_cons,
      List.sum_nil] at hcs ⊢
    omega
  · intro p hp
    show p.checkpoint ≤ acc2
    rcases (hmem p).mp hp with hold | rfl
    · have := hI.cp_le p hold
      omega
    · show acc2 ≤ acc2
      omega
  · show s.poolPaidOut * SCALE +
      ((s.parcels ++ [(⟨s.nextParcelId, x, y, width, height, acc2⟩ : ParcelRec)]).map
        (fun p => p.blockCount * (acc2 - p.checkpoint))).sum ≤
      (s.poolDeposited + dep) * SCALE
    have hsplit :
        ((s.parcels ++ [(⟨s.nextParcelId, x, y, width, height, acc2⟩ : ParcelRec)]).map
          (fun p => p.blockCount * (acc2 - p.checkpoint))).sum =
        (s.parcels.map (fun p => p.blockCount * (acc2 - p.checkpoint))).sum := by
      rw [List.map_append, List.sum_append]
      simp [ParcelRec.blockCount]
    have hpt : s.parcels.map (fun p => p.blockCount * (acc2 - p.checkpoint)) =
        s.parcels.map (fun p =>
          p.blockCount * (s.accumulator - p.checkpoint) +
          p.blockCount * (acc2 - s.accumulator)) := by
      apply List.map_congr_left
      intro p hp
      have := hI.cp_le p hp
      have hdist : acc2 - p.checkpoint =
          (s.accumulator - p.checkpoint) + (acc2 - s.accumulator) := by omega
      rw [hdist, Nat.mul_add]
    have hsum2 :
        (s.parcels.map (fun p =>
          p.blockCount * (s.accumulator - p.checkpoint) +
          p.blockCount * (acc2 - s.accumulator))).sum =
        (s.parcels.map (fun p => p.blockCount * (s.accumulator - p.checkpoint))).sum +
        (s.parcels.map ParcelRec.blockCount).sum * (acc2 - s.accumulator) := by
      rw [sum_map_add]
      congr 1
      exact sum_map_mul_right s.parcels ParcelRec.blockCount (acc2 - s.accumulator)
    have hTmul : (s.parcels.map ParcelRec.blockCount).sum * (acc2 - s.accumulator) ≤
        dep * SCALE := by
      rw [← hI.claimed_sum]
      exact hcons
    have hold := hI.conserve
    have hdistr : (s.poolDeposited + dep) * SCALE =
        s.poolDeposited * SCALE + dep * SCALE := Nat.add_mul _ _ _
    rw [hsplit, hpt, hsum2, hdistr]
    omega

lemma inv_init (price : Nat) (thresholds : List Nat) (uri : String) (bps : Nat) :
    Inv (initState price thresholds uri bps) := by
  refine
    { npid_pos := ?_, pid_lb := ?_, pid_ub := ?_, dims_pos := ?_, in_bounds := ?_,
      covers := ?_, pid_inj := ?_, claimed_sum := ?_, cp_le := ?_, conserve := ?_ } <;>
    simp [initState]

lemma inv_config {s : GridState} (hI : Inv s) (a : Option Nat) (b : Option (List Nat))
    (c : Option String) (d : Option Bool) (e : Option Nat) (f : Option Nat)
    (g : Option Nat) : Inv (update_config_tx s a b c d e f g) :=
  { npid_pos := hI.npid_pos, pid_lb := hI.pid_lb, pid_ub := hI.pid_ub,
    dims_pos := hI.dims_pos, in_bounds := hI.in_bounds, covers := hI.covers,
    pid_inj := hI.pid_inj, claimed_sum := hI.claimed_sum, cp_le := hI.cp_le,
    conserve := hI.conserve }

lemma inv_claim {s s' : GridState} {x y width height balance : Nat} (hI : Inv s)
    (h : claim_parcel_tx s x y width height balance = .ok s') : Inv s' := by
  obtain ⟨hcol, hv, hbd, hs'⟩ := claim_parcel_tx_ok h
  rw [validate_claim_ok_iff] at hv
  obtain ⟨⟨hw, hh⟩, hbx, hby, hcells⟩ := hv
  have hA2 : s.accumulator ≤
      claimNewAcc s (width * height * s.pricePerBlock * s.rewardShareBps / 10000) := by
    unfold claimNewAcc
    split
    · exact Nat.le_add_right _ _
    · exact le_rfl
  have hcons : s.totalClaimedBlocks *
      (claimNewAcc s (width * height * s.pricePerBlock * s.rewardShareBps / 10000) -
        s.accumulator) ≤
      width * height * s.pricePerBlock * s.rewardShareBps / 10000 * SCALE := by
    unfold claimNewAcc
    split
    · rw [Nat.add_sub_cancel_left]
      exact Nat.mul_div_le _ s.totalClaimedBlocks
    · simp
  subst hs'
  exact inv_alloc x y width height
    (claimNewAcc s (width * height * s.pricePerBlock * s.rewardShareBps / 10000))
    (width * height * s.pricePerBlock * s.rewardShareBps / 10000)
    (width * height * s.pricePerBlock -
      width * height * s.pricePerBlock * s.rewardShareBps / 10000)
    hI hw hh hbx hby (fun dy hdy dx hdx => (hcells dy hdy dx hdx).2) hA2 hcons

lemma inv_mint {s s' : GridState} {x y width height : Nat} (hI : Inv s)
    (h : admin_mint_tx s x y width height = .ok s') : Inv s' := by
  obtain ⟨hcol, hsd, hv, hs'⟩ := admin_mint_tx_ok h
  rw [validate_admin_mint_ok_iff] at hv
  obtain ⟨⟨hw, hh⟩, hbx, hby, hcells⟩ := hv
  subst hs'
  have hcons : s.totalClaimedBlocks * (s.accumulator - s.accumulator) ≤ 0 * SCALE := by
    simp
  exact inv_alloc x y width height s.accumulator 0 0 hI hw hh hbx hby hcells le_rfl hcons

lemma inv_settle {s s' : GridState} {pid : Nat} {owns : Bool} (hI : Inv s)
    (h : claim_land_buy_rewards_tx s pid owns = .ok s') : Inv s' := by
  obtain ⟨p, hf, how, hcp, howed_pos, howed_u64, hs'⟩ := claim_land_buy_rewards_tx_ok h
  have hpmem : p ∈ s.parcels := List.mem_of_find?_eq_some hf
  have hppid : p.pid = pid := by
    have := List.find?_some hf
    exact of_decide_eq_true this
  have hfp : ∀ q : ParcelRec,
      ((if q.pid = pid then { q with checkpoint := s.accumulator } else q) : ParcelRec).pid
        = q.pid ∧
      ((if q.pid = pid then { q with checkpoint := s.accumulator } else q) : ParcelRec).px
        = q.px ∧
      ((if q.pid = pid then { q with checkpoint := s.accumulator } else q) : ParcelRec).py
        = q.py ∧
      ((if q.pid = pid then { q with checkpoint := s.accumulator } else q) : ParcelRec).width
        = q.width ∧
      ((if q.pid = pid then { q with checkpoint := s.accumulator } else q) : ParcelRec).height
        = q.height := by
    intro q
    by_cases hq : q.pid = pid <;> simp [hq]
  subst hs'
  refine
    { npid_pos := hI.npid_pos, pid_lb := ?_, pid_ub := ?_, dims_pos := ?_, in_bounds := ?_,
      covers := ?_, pid_inj := ?_, claimed_sum := ?_, cp_le := ?_, conserve := ?_ }
  · intro q2 hq2
    obtain ⟨q, hq, rfl⟩ := List.mem_map.mp hq2
    rw [(hfp q).1]
    exact hI.pid_lb q hq
  · intro q2 hq2
    obtain ⟨q, hq, rfl⟩ := List.mem_map.mp hq2
    show _ < s.nextParcelId
    rw [(hfp q).1]
    exact hI.pid_ub q hq
  · intro q2 hq2
    obtain ⟨q, hq, rfl⟩ := List.mem_map.mp hq2
    rw [(hfp q).2.2.2.1, (hfp q).2.2.2.2]
    exact hI.dims_pos q hq
  · intro q2 hq2
    obtain ⟨q, hq, rfl⟩ := List.mem_map.mp hq2
    rw [(hfp q).2.1, (hfp q).2.2.1, (hfp q).2.2.2.1, (hfp q).2.2.2.2]
    exact hI.in_bounds q hq
  · intro q2 hq2 cx cy hcell
    obtain ⟨q, hq, rfl⟩ := List.mem_map.mp hq2
    obtain ⟨hfp1, hfp2, hfp3, hfp4, hfp5⟩ := hfp q
    unfold cellInParcel at hcell
    rw [hfp2, hfp3, hfp4, hfp5] at hcell
    show getBlock s.blocks cx cy = _
    rw [hfp1]
    exact hI.covers q hq cx cy hcell
  · intro q2 hq2 r2 hr2 hpq
    obtain ⟨q, hq, rfl⟩ := List.mem_map.mp hq2
    obtain ⟨r, hr, rfl⟩ := List.mem_map.mp hr2
    rw [(hfp q).1, (hfp r).1] at hpq
    rw [hI.pid_inj q hq r hr hpq]
  · show s.totalClaimedBlocks = _
    rw [hI.claimed_sum, List.map_map]
    apply congrArg
    apply List.map_congr_left
    intro q hq
    show q.blockCount = ParcelRec.blockCount _
    unfold ParcelRec.blockCount
    rw [(hfp q).2.2.2.1, (hfp q).2.2.2.2]
  · intro q2 hq2
    obtain ⟨q, hq, rfl⟩ := List.mem_map.mp hq2
    show _ ≤ s.accumulator
    by_cases hq3 : q.pid = pid
    · simp [hq3]
    · simp only [hq3, if_false]
      exact hI.cp_le q hq
  · show (s.poolPaidOut + p.blockCount * (s.accumulator - p.checkpoint) / SCALE) * SCALE +
      ((s.parcels.map (fun q =>
        if q.pid = pid then { q with checkpoint := s.accumulator } else q)).map
        (fun q => q.blockCount * (s.accumulator - q.checkpoint))).sum ≤
      s.poolDeposited * SCALE
    have hmapg : ((s.parcels.map (fun q =>
        if q.pid = pid then { q with checkpoint := s.accumulator } else q)).map
        (fun q => q.blockCount * (s.accumulator - q.checkpoint))).sum =
        (s.parcels.map (fun q => if decide (q.pid = pid) then 0
          else q.blockCount * (s.accumulator - q.checkpoint))).sum := by
      rw [List.map_map]
      apply congrArg
      apply List.map_congr_left
      intro q hq
      by_cases hq3 : q.pid = pid <;> simp [hq3]
    have hle : (s.parcels.map (fun q => if decide (q.pid = pid) then 0
        else q.blockCount * (s.accumulator - q.checkpoint))).sum +
        p.blockCount * (s.accumulator - p.checkpoint) ≤
        (s.parcels.map (fun q => q.blockCount * (s.accumulator - q.checkpoint))).sum :=
      sum_map_if_zero_le s.parcels (fun q => decide (q.pid = pid))
        (fun q => q.blockCount * (s.accumulator - q.checkpoint)) p hpmem
        (decide_eq_true hppid)
    have howed_le : p.blockCount * (s.accumulator - p.checkpoint) / SCALE * SCALE ≤
        p.blockCount * (s.accumulator - p.checkpoint) := Nat.div_mul_le_self _ _
    have hco := hI.conserve
    have hdistr : (s.poolPaidOut + p.blockCount * (s.accumulator - p.checkpoint) / SCALE) *
        SCALE = s.poolPaidOut * SCALE +
        p.blockCount * (s.accumulator - p.checkpoint) / SCALE * SCALE := Nat.add_mul _ _ _
    rw [hmapg]
    omega

/-- Every single-operation step preserves the invariant. -/
lemma inv_step {s : GridState} (hI : Inv s) (op : Op) : Inv (stepOp op s) := by
  cases op with
  | claim x y w h bal =>
      simp only [stepOp]
      cases hr : claim_parcel_tx s x y w h bal with
      | ok s2 => exact inv_claim hI hr
      | error e => exact hI
  | mint x y w h =>
      simp only [stepOp]
      cases hr : admin_mint_tx s x y w h with
      | ok s2 => exact inv_mint hI hr
      | error e => exact hI
  | settle pid owns =>
      simp only [stepOp]
      cases hr : claim_land_buy_rewards_tx s pid owns with
      | ok s2 => exact inv_settle hI hr
      | error e => exact hI
  | config a b c d e f g => exact inv_config hI a b c d e f g

/-- The invariant holds after any sequence of operations from any start state
satisfying it. -/
lemma inv_steps {s : GridState} (hI : Inv s) (ops : List Op) : Inv (steps ops s) := by
  induction ops generalizing s with
  | nil => exact hI
  | cons op rest ih => exact ih (inv_step hI op)

lemma get_ring_flip_x (x y : Nat) (h1 : 1 ≤ x) (h2 : x ≤ 99) :
    get_ring (100 - x) y = get_ring x y := by
  dsimp only [get_ring, GRID_SIZE]
  have h : (if 100 / 2 ≤ 100 - x then 100 - x - 100 / 2 else 100 / 2 - (100 - x)) =
      (if 100 / 2 ≤ x then x - 100 / 2 else 100 / 2 - x) := by
    split_ifs <;> omega
  rw [h]

lemma get_ring_flip_y (x y : Nat) (h1 : 1 ≤ y) (h2 : y ≤ 99) :
    get_ring x (100 - y) = get_ring x y := by
  dsimp only [get_ring, GRID_SIZE]
  have h : (if 100 / 2 ≤ 100 - y then 100 - y - 100 / 2 else 100 / 2 - (100 - y)) =
      (if 100 / 2 ≤ y then y - 100 / 2 else 100 / 2 - y) := by
    split_ifs <;> omega
  rw [h]

lemma find?_map_update (l : List ParcelRec) (pid acc : Nat) (p : ParcelRec)
    (hf : l.find? (fun q => q.pid = pid) = some p) :
    (l.map (fun q => if q.pid = pid then { q with checkpoint := acc } else q)).find?
      (fun q => q.pid = pid) = some { p with checkpoint := acc } := by
  induction l with
  | nil => cases hf
  | cons a t ih =>
      by_cases ha : a.pid = pid
      · have hfa : (a :: t).find? (fun q => q.pid = pid) = some a :=
          List.find?_cons_of_pos _ (by simp [ha])
        rw [hfa] at hf
        obtain rfl : a = p := by injection hf
        rw [List.map_cons, if_pos ha]
        exact List.find?_cons_of_pos _ (by simp [ha])
      · have hfa : (a :: t).find? (fun q => q.pid = pid) = t.find? (fun q => q.pid = pid) :=
          List.find?_cons_of_neg _ (by simp [ha])
        rw [hfa] at hf
        rw [List.map_cons, if_neg ha]
        rw [List.find?_cons_of_neg _ (by simp [ha])]
        exact ih hf

/-- C1: starting from the all-zero grid, after any sequence of committed
operations (in particular any sequence of claim_parcel and admin_mint
operations), every cell of each committed parcel's rectangle holds that
parcel's id in the BlockMap, and no cell lies in the rectangles of two
distinct allocated parcels. -/
theorem claim_C1_nonoverlap (price : Nat) (th : List Nat) (uri : String) (bps : Nat)
    (ops : List Op) :
    (∀ p ∈ (steps ops (initState price th uri bps)).parcels, ∀ cx cy,
      cellInParcel p cx cy →
      getBlock (steps ops (initState price th uri bps)).blocks cx cy = p.pid) ∧
    (∀ p ∈ (steps ops (initState price th uri bps)).parcels,
      ∀ q ∈ (steps ops (initState price th uri bps)).parcels, p ≠ q →
      ∀ cx cy, ¬ (cellInParcel p cx cy ∧ cellInParcel q cx cy)) := by
  have hI := inv_steps (inv_init price th uri bps) ops
  refine ⟨hI.covers, ?_⟩
  intro p hp q hq hne cx cy hboth
  obtain ⟨hcp, hcq⟩ := hboth
  have e1 := hI.covers p hp cx cy hcp
  have e2 := hI.covers q hq cx cy hcq
  exact hne (hI.pid_inj p hp q hq (by omega))

/-- C1 witness: after setting the collection and admin-minting 1 x 1 parcels
at (0,0) and (1,0), cell (0,0) holds parcel id 1 and the two parcels do not
both contain cell (0,0). -/
theorem claim_C1_nonoverlap_witness :
    getBlock (steps exAllocOps (initState 1 [] "" 0)).blocks 0 0 = 1 ∧
    ¬ (cellInParcel ⟨1, 0, 0, 1, 1, 0⟩ 0 0 ∧ cellInParcel ⟨2, 1, 0, 1, 1, 0⟩ 0 0) :=
  ⟨(claim_C1_nonoverlap 1 [] "" 0 exAllocOps).1 ⟨1, 0, 0, 1, 1, 0⟩ (by decide) 0 0
      (by decide),
   (claim_C1_nonoverlap 1 [] "" 0 exAllocOps).2 ⟨1, 0, 0, 1, 1, 0⟩ (by decide)
      ⟨2, 1, 0, 1, 1, 0⟩ (by decide) (by decide) 0 0⟩

/-- C2: on a successful claim_parcel, the accumulator is unchanged when the
pre-purchase claimed-cell count is 0, and otherwise grows by exactly
floor(reward_amount * 10^9 / total_claimed_cells_before) where reward_amount
is cells * price * bps / 10000; moreover the 128-bit intermediate product
reward_amount * 10^9 always fits in a u128 on a success path, so the
overflow branch of the contribution can never fire. -/
theorem claim_C2_accumulator (s s' : GridState) (x y width height balance : Nat)
    (h : claim_parcel_tx s x y width height balance = .ok s') :
    (s.totalClaimedBlocks = 0 → s'.accumulator = s.accumulator) ∧
    (0 < s.totalClaimedBlocks → s'.accumulator = s.accumulator +
      width * height * s.pricePerBlock * s.rewardShareBps / 10000 * SCALE /
        s.totalClaimedBlocks) ∧
    width * height * s.pricePerBlock * s.rewardShareBps / 10000 * SCALE ≤ U128MAX := by
  obtain ⟨hcol, hv, hbd, hs'⟩ := claim_parcel_tx_ok h
  have hrw : width * height * s.pricePerBlock * s.rewardShareBps / 10000 ≤ U64MAX :=
    le_trans (Nat.div_le_self _ _) hbd
  have hfit : width * height * s.pricePerBlock * s.rewardShareBps / 10000 * SCALE ≤
      U128MAX := by
    calc width * height * s.pricePerBlock * s.rewardShareBps / 10000 * SCALE
        ≤ U64MAX * SCALE := Nat.mul_le_mul_right SCALE hrw
      _ ≤ U128MAX := by norm_num [U64MAX, SCALE, U128MAX]
  subst hs'
  refine ⟨?_, ?_, hfit⟩
  · intro h0
    show claimNewAcc s _ = s.accumulator
    unfold claimNewAcc
    rw [if_neg (by omega)]
  · intro hT
    show claimNewAcc s _ = _
    unfold claimNewAcc
    by_cases hR : 0 < width * height * s.pricePerBlock * s.rewardShareBps / 10000
    · rw [if_pos ⟨hT, hR⟩]
    · have hR0 : width * height * s.pricePerBlock * s.rewardShareBps / 10000 = 0 := by
        omega
      rw [if_neg (by omega)]
      rw [hR0]
      simp

/-- C2 witness: with 100 cells previously claimed, price 1000 and a 100
percent reward share, a 1 x 1 claim (reward_amount 1000) raises the
accumulator by exactly 1000 * 10^9 / 100 = 10^10. -/
theorem claim_C2_accumulator_witness :
    0 < exClaimState.totalClaimedBlocks ∧
    (stepOp (Op.claim 0 0 1 1 1000) exClaimState).accumulator =
      exClaimState.accumulator + 10000000000 := by
  have h : claim_parcel_tx exClaimState 0 0 1 1 1000 =
      .ok (stepOp (Op.claim 0 0 1 1 1000) exClaimState) := by rfl
  have h2 := (claim_C2_accumulator exClaimState _ 0 0 1 1 1000 h).2.1 (by decide)
  exact ⟨by decide, by rw [h2]; rfl⟩

/-- C4: across every sequence of operations from any initialized state (in
particular any sequence of claim_parcel, admin_mint and
claim_land_buy_rewards), the total paid out by reward settlements never
exceeds the total reward contributions transferred into the pool. -/
theorem claim_C4_conservation (price : Nat) (th : List Nat) (uri : String) (bps : Nat)
    (ops : List Op) :
    (steps ops (initState price th uri bps)).poolPaidOut ≤
      (steps ops (initState price th uri bps)).poolDeposited := by
  have hI := inv_steps (inv_init price th uri bps) ops
  have hc := hI.conserve
  have h1 : (steps ops (initState price th uri bps)).poolPaidOut * SCALE ≤
      (steps ops (initState price th uri bps)).poolDeposited * SCALE :=
    le_trans (Nat.le_add_right _ _) hc
  exact Nat.le_of_mul_le_mul_right h1 (by norm_num [SCALE])

/-- C5 counterexample: the claimed reflection symmetry about 99 - x fails;
get_ring(45,50) = 9 while get_ring(99-45,50) = get_ring(54,50) = 10, because
the code measures Chebyshev distance from center 50 of the 0..99 grid. -/
theorem claim_C5_reflection_cex :
    get_ring 45 50 = 9 ∧ get_ring (99 - 45) 50 = 10 := by decide

/-- C5 amended: get_ring is symmetric under reflection about the center
coordinate 50 (x maps to 100 - x, defined for 1 ≤ x ≤ 99), not about
99 - x; and the stated specific values at the center and corners hold. -/
theorem claim_C5_center_symmetry :
    (∀ x y : Nat, 1 ≤ x → x ≤ 99 → 1 ≤ y → y ≤ 99 →
      get_ring x y = get_ring (100 - x) y ∧
      get_ring x y = get_ring x (100 - y) ∧
      get_ring x y = get_ring (100 - x) (100 - y)) ∧
    get_ring 50 50 = 10 ∧ get_ring 0 0 = 1 ∧ get_ring 99 99 = 1 ∧
    get_ring 0 99 = 1 ∧ get_ring 99 0 = 1 := by
  refine ⟨?_, by decide, by decide, by decide, by decide, by decide⟩
  intro x y hx1 hx2 hy1 hy2
  refine ⟨(get_ring_flip_x x y hx1 hx2).symm, (get_ring_flip_y x y hy1 hy2).symm, ?_⟩
  exact ((get_ring_flip_y x y hy1 hy2).symm).trans
    ((get_ring_flip_x x (100 - y) hx1 hx2)).symm

/-- C5 amended witness: the center symmetry at (1,1) against (99,1). -/
theorem claim_C5_center_symmetry_witness :
    1 ≤ (1 : Nat) ∧ get_ring 1 1 = get_ring 99 1 :=
  ⟨by decide,
   (claim_C5_center_symmetry.1 1 1 (by decide) (by decide) (by decide) (by decide)).1⟩

/-- C9: for every pair of u8 inputs, including coordinates beyond the
100-cell grid bound, get_ring performs no wrapping u8 cast, addition or
subtraction (the checked variant returns some) and its result lies between 1
and 10 inclusive. -/
theorem claim_C9_ring_total : ∀ x y : Nat, x < 256 → y < 256 →
    get_ring_checked x y = some (get_ring x y) ∧
    1 ≤ get_ring x y ∧ get_ring x y ≤ 10 := by
  intro x y hx hy
  dsimp only [get_ring, get_ring_checked, GRID_SIZE]
  refine ⟨?_, ?_, ?_⟩ <;> split_ifs <;>
    first | rfl | omega | (exfalso; omega) | (congr 1; omega)

/-- C9 witness: the out-of-grid coordinate pair (255, 131). -/
theorem claim_C9_ring_total_witness :
    get_ring_checked 255 131 = some (get_ring 255 131) ∧
    1 ≤ get_ring 255 131 ∧ get_ring 255 131 ≤ 10 :=
  claim_C9_ring_total 255 131 (by decide) (by decide)

/-- C3: claim_land_buy_rewards settles as specified.  With the resolved
parcel record p: a checkpoint above the accumulator fails with Overflow; a
zero owed amount (owed = block_count * (accumulator - checkpoint) / 10^9)
fails with NothingToClaim; a success means owed was positive, pays out
exactly owed, stores the accumulator as the new checkpoint, and an immediate
second settlement with no intervening contribution fails NothingToClaim. -/
theorem claim_C3_settle (s s' : GridState) (pid : Nat) (p : ParcelRec)
    (hf : s.parcels.find? (fun q => q.pid = pid) = some p) :
    (s.accumulator < p.checkpoint →
      claim_land_buy_rewards_tx s pid true = .error .Overflow) ∧
    (p.checkpoint ≤ s.accumulator →
      p.blockCount * (s.accumulator - p.checkpoint) / SCALE = 0 →
      claim_land_buy_rewards_tx s pid true = .error .NothingToClaim) ∧
    (claim_land_buy_rewards_tx s pid true = .ok s' →
      0 < p.blockCount * (s.accumulator - p.checkpoint) / SCALE ∧
      s'.poolPaidOut = s.poolPaidOut +
        p.blockCount * (s.accumulator - p.checkpoint) / SCALE ∧
      s'.parcels.find? (fun q => q.pid = pid) =
        some { p with checkpoint := s.accumulator } ∧
      claim_land_buy_rewards_tx s' pid true = .error .NothingToClaim) := by
  refine ⟨?_, ?_, ?_⟩
  · intro hlt
    unfold claim_land_buy_rewards_tx
    rw [hf]
    dsimp only
    rw [if_neg (by simp), if_pos hlt]
  · intro hle h0
    unfold claim_land_buy_rewards_tx
    rw [hf]
    dsimp only
    have hsmall : p.blockCount * (s.accumulator - p.checkpoint) < SCALE :=
      (Nat.div_eq_zero_iff (by norm_num [SCALE])).mp h0
    have hb1 : p.blockCount * (s.accumulator - p.checkpoint) ≤ U128MAX := by
      unfold SCALE at hsmall
      unfold U128MAX
      omega
    rw [if_neg (by simp), if_neg (by omega), if_neg (not_not.mpr hb1), h0]
    rw [if_neg (by norm_num [U64MAX]), if_pos rfl]
  · intro hok
    obtain ⟨p2, hf2, how, hcp2, hpos2, hu64, hs'⟩ := claim_land_buy_rewards_tx_ok hok
    rw [hf] at hf2
    have hpp : p = p2 := by injection hf2
    subst hpp
    subst hs'
    refine ⟨hpos2, rfl, find?_map_update s.parcels pid s.accumulator p hf, ?_⟩
    unfold claim_land_buy_rewards_tx
    dsimp only
    rw [find?_map_update s.parcels pid s.accumulator p hf]
    dsimp only
    rw [if_neg (by simp), if_neg (by omega)]
    have hz : ParcelRec.blockCount { p with checkpoint := s.accumulator } *
        (s.accumulator - s.accumulator) = 0 := by
      rw [Nat.sub_self, Nat.mul_zero]
    rw [hz, Nat.zero_div]
    rw [if_neg (by norm_num [U128MAX]), if_neg (by norm_num [U64MAX]), if_pos rfl]

/-- C3 witness: settling the 10-cell parcel with checkpoint 0 against
accumulator 10^10 pays exactly 100, and immediately settling again fails
NothingToClaim. -/
theorem claim_C3_settle_witness :
    (stepOp (Op.settle 1 true) exSettleState).poolPaidOut =
      exSettleState.poolPaidOut + 100 ∧
    claim_land_buy_rewards_tx (stepOp (Op.settle 1 true) exSettleState) 1 true =
      .error .NothingToClaim := by
  have h : claim_land_buy_rewards_tx exSettleState 1 true =
      .ok (stepOp (Op.settle 1 true) exSettleState) := by rfl
  have h2 := (claim_C3_settle exSettleState _ 1 ⟨1, 0, 0, 2, 5, 0⟩ (by rfl)).2.2 h
  exact ⟨h2.2.1.trans (by rfl), h2.2.2.2⟩

/-- C6 counterexample: the program never validates the reward-share value;
update_config with land_owners_reward_share_bps = 20000 commits a reachable
state whose reward-share fraction exceeds 10000 basis points. -/
theorem claim_C6_bps_cex :
    ¬ (stepOp (Op.config none none none none none (some 20000) none)
        (initState 0 [] "" 100)).rewardShareBps ≤ 10000 := by decide

/-- C6 amended: the bound holds only as a caller discipline; it is
established by initialize exactly when the caller-supplied value is at most
10000, and preserved by every operation that does not itself store a larger
caller-supplied value (claim_parcel, admin_mint and claim_land_buy_rewards
never modify the field, and update_config preserves the bound exactly when
its bps argument is absent or at most 10000). -/
theorem claim_C6_bps_guarded :
    (∀ (price : Nat) (th : List Nat) (uri : String) (bps : Nat), bps ≤ 10000 →
      (initState price th uri bps).rewardShareBps ≤ 10000) ∧
    (∀ (s : GridState) (op : Op), s.rewardShareBps ≤ 10000 → op.bpsBounded →
      (stepOp op s).rewardShareBps ≤ 10000) := by
  refine ⟨fun _ _ _ _ h => h, ?_⟩
  intro s op hs hop
  cases op with
  | claim x y w h bal =>
      simp only [stepOp]
      cases hr : claim_parcel_tx s x y w h bal with
      | ok s2 =>
          obtain ⟨_, _, _, hs2⟩ := claim_parcel_tx_ok hr
          subst hs2
          exact hs
      | error e => exact hs
  | mint x y w h =>
      simp only [stepOp]
      cases hr : admin_mint_tx s x y w h with
      | ok s2 =>
          obtain ⟨_, _, _, hs2⟩ := admin_mint_tx_ok hr
          subst hs2
          exact hs
      | error e => exact hs
  | settle pid owns =>
      simp only [stepOp]
      cases hr : claim_land_buy_rewards_tx s pid owns with
      | ok s2 =>
          obtain ⟨p, _, _, _, _, _, hs2⟩ := claim_land_buy_rewards_tx_ok hr
          subst hs2
          exact hs
      | error e => exact hs
  | config a b c d e f g =>
      show (update_config_tx s a b c d e f g).rewardShareBps ≤ 10000
      cases f with
      | none => exact hs
      | some b2 => exact hop

/-- C6 amended witness: initialize with 100 bps establishes the bound and an
admin_mint preserves it. -/
theorem claim_C6_bps_guarded_witness :
    (initState 0 [] "" 100).rewardShareBps ≤ 10000 ∧
    (stepOp (Op.mint 0 0 1 1) (initState 0 [] "" 100)).rewardShareBps ≤ 10000 :=
  ⟨claim_C6_bps_guarded.1 0 [] "" 100 (by decide),
   claim_C6_bps_guarded.2 (initState 0 [] "" 100) (Op.mint 0 0 1 1) (by decide)
     trivial⟩

/-- C7 counterexample: a claim over an already-claimed cell does not always
fail with BlockAlreadyClaimed; after admin-minting the locked center cell
(50,50), claiming it fails with RingLocked because the per-cell ring check
precedes the unclaimed check. -/
theorem claim_C7_cex :
    getBlock exRingLockedState.blocks 50 50 ≠ 0 ∧
    claim_parcel_tx exRingLockedState 50 50 1 1 0 = .error .RingLocked ∧
    claim_parcel_tx exRingLockedState 50 50 1 1 0 ≠ .error .BlockAlreadyClaimed := by
  refine ⟨by decide, by rfl, ?_⟩
  intro hbad
  rw [(by rfl :
    claim_parcel_tx exRingLockedState 50 50 1 1 0 = Except.error Err.RingLocked)] at hbad
  exact absurd (Except.error.inj hbad) (by decide)

/-- C7 amended: if some cell of the requested rectangle is already non-zero,
claim_parcel never succeeds and the committed state is exactly the
pre-state; the error is BlockAlreadyClaimed whenever the collection is set,
the rectangle is in bounds and every cell of the rectangle passes the ring
check (otherwise an earlier validation error such as RingLocked is
reported). -/
theorem claim_C7_blocked (s : GridState) (x y width height balance dx dy : Nat)
    (hdx : dx < width) (hdy : dy < height)
    (hnz : getBlock s.blocks (x + dx) (y + dy) ≠ 0) :
    (∃ e, claim_parcel_tx s x y width height balance = .error e) ∧
    stepOp (Op.claim x y width height balance) s = s ∧
    (s.collection ≠ 0 → x + width ≤ GRID_SIZE → y + height ≤ GRID_SIZE →
      (∀ dy2 < height, ∀ dx2 < width,
        get_ring (x + dx2) (y + dy2) ≤
          get_unlocked_ring s.totalBurned s.ringThresholds) →
      claim_parcel_tx s x y width height balance = .error .BlockAlreadyClaimed) := by
  have hnotok : ∀ s2, claim_parcel_tx s x y width height balance ≠ .ok s2 := by
    intro s2 hok
    obtain ⟨_, hv, _, _⟩ := claim_parcel_tx_ok hok
    rw [validate_claim_ok_iff] at hv
    exact hnz (hv.2.2.2 dy hdy dx hdx).2
  refine ⟨?_, ?_, ?_⟩
  · cases hr : claim_parcel_tx s x y width height balance with
    | ok s2 => exact absurd hr (hnotok s2)
    | error e => exact ⟨e, rfl⟩
  · simp only [stepOp]
    cases hr : claim_parcel_tx s x y width height balance with
    | ok s2 => exact absurd hr (hnotok s2)
    | error e => rfl
  · intro hcol hbx hby hring
    have hvb := validate_claim_blocked x y width height s.blocks s.totalBurned
      s.ringThresholds hbx hby hring dx dy hdx hdy hnz
    unfold claim_parcel_tx
    rw [if_neg hcol, hvb]

/-- C7 amended witness: after admin-minting corner cell (0,0), which is in
the always-unlocked ring 1, re-claiming it leaves the state unchanged and
fails with BlockAlreadyClaimed. -/
theorem claim_C7_blocked_witness :
    stepOp (Op.claim 0 0 1 1 0) exBlockedState = exBlockedState ∧
    claim_parcel_tx exBlockedState 0 0 1 1 0 = .error .BlockAlreadyClaimed := by
  have h := claim_C7_blocked exBlockedState 0 0 1 1 0 0 0 (by decide) (by decide)
    (by decide)
  exact ⟨h.2.1, h.2.2 (by decide) (by decide) (by decide) (by decide)⟩

/-- C8 counterexample: total_burned is not monotone across all operations;
update_config lets the authority set it to any value, in particular lower
(here from 5 back to 0). -/
theorem claim_C8_burn_cex :
    (stepOp (Op.config none none none none none none (some 0))
      (stepOp (Op.config none none none none none none (some 5))
        (initState 0 [] "" 0))).totalBurned <
    (stepOp (Op.config none none none none none none (some 5))
      (initState 0 [] "" 0)).totalBurned := by decide

/-- C8 amended: every operation other than update_config (claim_parcel,
admin_mint, claim_land_buy_rewards) never decreases total_burned;
update_config may overwrite it with any authority-supplied value. -/
theorem claim_C8_burn_monotone (s : GridState) (op : Op) (hop : op.isConfig = false) :
    s.totalBurned ≤ (stepOp op s).totalBurned := by
  cases op with
  | claim x y w h bal =>
      simp only [stepOp]
      cases hr : claim_parcel_tx s x y w h bal with
      | ok s2 =>
          obtain ⟨_, _, _, hs2⟩ := claim_parcel_tx_ok hr
          subst hs2
          exact Nat.le_add_right _ _
      | error e => exact le_rfl
  | mint x y w h =>
      simp only [stepOp]
      cases hr : admin_mint_tx s x y w h with
      | ok s2 =>
          obtain ⟨_, _, _, hs2⟩ := admin_mint_tx_ok hr
          subst hs2
          exact le_rfl
      | error e => exact le_rfl
  | settle pid owns =>
      simp only [stepOp]
      cases hr : claim_land_buy_rewards_tx s pid owns with
      | ok s2 =>
          obtain ⟨p, _, _, _, _, _, hs2⟩ := claim_land_buy_rewards_tx_ok hr
          subst hs2
          exact le_rfl
      | error e => exact le_rfl
  | config a b c d e f g => simp [Op.isConfig] at hop

/-- C8 amended witness: an admin_mint step does not decrease total_burned. -/
theorem claim_C8_burn_monotone_witness :
    (initState 0 [] "" 0).totalBurned ≤
      (stepOp (Op.mint 0 0 1 1) (initState 0 [] "" 0)).totalBurned :=
  claim_C8_burn_monotone (initState 0 [] "" 0) (Op.mint 0 0 1 1) (by rfl)

/-- C10: a successful claim_land_buy_rewards changes only the settled
parcel's checkpoint (plus the payout transfer itself): the block map,
accumulator, totals, next parcel id, every other config field and every
other parcel record are unchanged. -/
theorem claim_C10_settle_frame (s s' : GridState) (pid : Nat) (owns : Bool)
    (h : claim_land_buy_rewards_tx s pid owns = .ok s') :
    s'.blocks = s.blocks ∧ s'.accumulator = s.accumulator ∧
    s'.totalClaimedBlocks = s.totalClaimedBlocks ∧ s'.totalBurned = s.totalBurned ∧
    s'.nextParcelId = s.nextParcelId ∧ s'.collection = s.collection ∧
    s'.seedingEnabled = s.seedingEnabled ∧ s'.pricePerBlock = s.pricePerBlock ∧
    s'.ringThresholds = s.ringThresholds ∧ s'.uriBase = s.uriBase ∧
    s'.rewardShareBps = s.rewardShareBps ∧
    s'.parcels = s.parcels.map (fun q =>
      if q.pid = pid then { q with checkpoint := s.accumulator } else q) ∧
    (∀ q ∈ s.parcels, q.pid ≠ pid → q ∈ s'.parcels) := by
  obtain ⟨p, hf, how, hcp, hpos, hu, hs'⟩ := claim_land_buy_rewards_tx_ok h
  subst hs'
  refine ⟨rfl, rfl, rfl, rfl, rfl, rfl, rfl, rfl, rfl, rfl, rfl, rfl, ?_⟩
  intro q hq hne
  show q ∈ List.map _ s.parcels
  exact List.mem_map.mpr ⟨q, hq, by simp [hne]⟩

/-- C10 witness: the example settlement leaves accumulator and total_burned
unchanged. -/
theorem claim_C10_settle_frame_witness :
    (stepOp (Op.settle 1 true) exSettleState).totalBurned =
      exSettleState.totalBurned ∧
    (stepOp (Op.settle 1 true) exSettleState).accumulator =
      exSettleState.accumulator := by
  have h : claim_land_buy_rewards_tx exSettleState 1 true =
      .ok (stepOp (Op.settle 1 true) exSettleState) := by rfl
  have h2 := claim_C10_settle_frame exSettleState _ 1 true h
  exact ⟨h2.2.2.2.1, h2.2.1⟩

end Billion
